import Mathlib

/-!
Verification of the commit-message generation service (`app/llm_client.py`,
`app/main.py`).  Strings are modelled as `List Char`; the Python string
operations used by the source (`strip`, `splitlines`, `re.sub` on anchored
quote patterns, slicing, containment) are embedded as executable functions
below, and the prompt-construction / completion-sanitization pipeline of
`generate_commit_message_with_context` is reproduced section by section.
-/

/-- Characters stripped by Python `str.strip()` with no arguments and accepted
by `str.isspace` (ASCII whitespace, the separator controls, NEL, NBSP and the
Unicode space characters). -/
def pySpaceChars : List Char :=
  ['\t', '\n', '\x0b', '\x0c', '\r', ' ', '\x1c', '\x1d', '\x1e', '\x1f',
   '\x85', '\xa0', ' ', ' ', ' ', ' ', ' ', ' ',
   ' ', ' ', ' ', ' ', ' ', ' ', ' ',
   ' ', ' ', ' ', '　']

def isPySpace (c : Char) : Bool := pySpaceChars.contains c

/-- Line boundaries recognised by Python `str.splitlines`. -/
def isPyLineBreak (c : Char) : Bool :=
  ['\n', '\r', '\x0b', '\x0c', '\x1c', '\x1d', '\x1e', '\x85',
   ' ', ' '].contains c

/-- Python `s.lstrip` restricted to a character predicate. -/
def pyLStrip (p : Char → Bool) (s : List Char) : List Char := s.dropWhile p

/-- Python `s.rstrip` restricted to a character predicate. -/
def pyRStrip (p : Char → Bool) (s : List Char) : List Char :=
  (s.reverse.dropWhile p).reverse

/-- Python `s.strip` restricted to a character predicate: drop matching
characters from both ends. -/
def pyStrip (p : Char → Bool) (s : List Char) : List Char :=
  pyRStrip p (pyLStrip p s)

/-- The straight double-quote or single-quote characters matched by the
character class of the two `re.sub` post-processing patterns. -/
def isQuoteChar (c : Char) : Bool := c = '\x22' || c = '\x27'

/-- Embedding of `re.sub` with the start-anchored quote pattern: remove one
leading straight quote when present (`llm_client.py` line 114). -/
def subLeadingQuote : List Char → List Char
  | [] => []
  | c :: cs => if isQuoteChar c then cs else c :: cs

/-- Embedding of `re.sub` with the end-anchored quote pattern
(`llm_client.py` line 115).  The dollar anchor of Python `re` matches at the
end of the string or just before one final newline, so the removed quote may
sit at the very end or immediately before a single trailing newline. -/
def subTrailingQuote (s : List Char) : List Char :=
  match s.reverse with
  | [] => []
  | c :: rest =>
    if isQuoteChar c then rest.reverse
    else if c = '\n' then
      match rest with
      | [] => s
      | d :: rest2 => if isQuoteChar d then ('\n' :: rest2).reverse else s
    else s

/-- The character set of Python `strip` with the explicit argument of backtick,
space and newline (`llm_client.py` line 116). -/
def isTickSpaceNewline (c : Char) : Bool := c = '`' || c = ' ' || c = '\n'

/-- Python `s.splitlines()[0]` for a non-empty string: the prefix before the
first line-boundary character. -/
def pyFirstLine (s : List Char) : List Char := s.takeWhile (fun c => !isPyLineBreak c)

/-- The fixed fallback subject returned when sanitization leaves nothing
(`llm_client.py` line 123). -/
def fallbackMessage : List Char := "chore: Automatic generation failed".toList

/-- The post-processing pipeline of `generate_commit_message_with_context`
(`llm_client.py` lines 109-123): trim whitespace, remove one leading and one
trailing straight quote, strip backtick/space/newline characters from both
ends, keep the first line, and substitute the fallback message when the
result is empty. -/
def sanitizeCompletion (raw : List Char) : List Char :=
  let m1 := pyStrip isPySpace raw
  let m2 := subTrailingQuote (subLeadingQuote m1)
  let m3 := pyStrip isTickSpaceNewline m2
  let m4 := if m3 = [] then [] else pyFirstLine m3
  if m4 = [] then fallbackMessage else m4

/-- Python truthiness plus `str.isspace` test used by the guards in
`llm_client.py` line 79 and `main.py` line 92: `isspace` is true only for a
non-empty all-whitespace string. -/
def pyIsSpaceStr (s : List Char) : Bool := !s.isEmpty && s.all isPySpace

/-- ASCII letters: the character class of the ticket pattern under
`re.IGNORECASE` (`llm_client.py` line 64), modelled over ASCII. -/
def isAsciiAlpha (c : Char) : Bool :=
  ('A' ≤ c && c ≤ 'Z') || ('a' ≤ c && c ≤ 'z')

/-- ASCII decimal digits: the digit class of the ticket pattern, modelled
over ASCII. -/
def isAsciiDigit (c : Char) : Bool := '0' ≤ c && c ≤ '9'

/-- Greedy match of the ticket pattern (letters, hyphen, digits) anchored at
the start of `s`, as Python `re` matches it at one scan position. -/
def ticketMatchAt (s : List Char) : Option (List Char) :=
  let letters := s.takeWhile isAsciiAlpha
  match s.dropWhile isAsciiAlpha with
  | '-' :: r2 =>
    let digits := r2.takeWhile isAsciiDigit
    if letters.isEmpty || digits.isEmpty then none else some (letters ++ '-' :: digits)
  | _ => none

/-- Embedding of `re.search` for the ticket pattern: try every start position
left to right and return the first (leftmost, greedy) match
(`llm_client.py` line 64). -/
def searchTicket : List Char → Option (List Char)
  | [] => none
  | c :: cs =>
    match ticketMatchAt (c :: cs) with
    | some m => some m
    | none => searchTicket cs

/-- The CommitContext record: the five request fields handed to
`generate_commit_message_with_context`. -/
structure CommitContext where
  diff_text : List Char
  branch_name : List Char
  changed_files : List (List Char)
  author_name : List Char
  existing_message : List Char

def promptHeaderLine : List Char :=
  "Generate a Conventional Commit message subject line based on the following context and git diff.".toList

def contextHeaderLine : List Char := "\n# Context:".toList

def branchLine (b : List Char) : List Char := "- Branch: ".toList ++ b

def ticketHintPrefix : List Char := "- Potential Ticket ID from branch: ".toList

/-- The ticket-hint line (`llm_client.py` line 67); the surfaced id appears
once after the prefix and once inside the Refs example. -/
def ticketHintLine (t : List Char) : List Char :=
  ticketHintPrefix ++ t ++
  " (If relevant, the commit body should reference this, e.g., ".toList ++
  '\x27' :: "Refs ".toList ++ t ++
  '\x27' :: ", but DO NOT include it in the subject line itself unless essential).".toList

/-- The ticket section of the prompt: one hint line when the search finds a
match (uppercased), nothing otherwise (`llm_client.py` lines 64-67). -/
def ticketSection (b : List Char) : List (List Char) :=
  match searchTicket b with
  | some t => [ticketHintLine (t.map Char.toUpper)]
  | none => []

def authorLine (a : List Char) : List Char := "- Author: ".toList ++ a

def changedFilesHeader : List Char := "- Changed Files:".toList

def fileEntryLine (f : List Char) : List Char := "  - ".toList ++ f

def moreFilesLine (k : Nat) : List Char :=
  "  - ... (".toList ++ (Nat.repr k).toList ++ " more)".toList

/-- The Changed Files section (`llm_client.py` lines 71-77): header, the
first ten files, and a remainder line when more than ten exist; omitted
entirely when the list is empty. -/
def filesSection (files : List (List Char)) : List (List Char) :=
  if files.isEmpty then []
  else
    changedFilesHeader :: (files.take 10).map fileEntryLine ++
      (if files.length > 10 then [moreFilesLine (files.length - 10)] else [])

def mergePullRequestPattern : List Char := "Merge pull request #".toList

def mergeBranchPattern : List Char := "Merge branch ".toList

/-- Python substring containment (the `in` operator on strings): `pat` occurs
as a contiguous run somewhere in the subject string. -/
def containsSubstring (pat : List Char) : List Char → Bool
  | [] => pat.isEmpty
  | c :: cs => pat.isPrefixOf (c :: cs) || containsSubstring pat cs

/-- The merge-message test of `llm_client.py` line 80: literal substring
containment of either default-merge pattern. -/
def isMergeMessage (em : List Char) : Bool :=
  containsSubstring mergePullRequestPattern em || containsSubstring mergeBranchPattern em

/-- The merge note (`llm_client.py` line 81), showing the first line of the
existing message between quote characters followed by an ellipsis. -/
def noteLine (em : List Char) : List Char :=
  "- Note: The existing message (".toList ++ '\x27' :: pyFirstLine em ++
  "...".toList ++ '\x27' :: ") seems like a default merge message. Generate a new message based *only* on the diff and other context.".toList

/-- The draft line (`llm_client.py` line 83), showing the first line of the
existing message between quote characters. -/
def draftLine (em : List Char) : List Char :=
  "- Existing Message Draft: ".toList ++ '\x27' :: pyFirstLine em ++
  '\x27' :: " (Analyze the diff and context. Either refine this draft or generate a completely new subject line if this draft is inadequate or inaccurate.)".toList

/-- The existing-message section (`llm_client.py` lines 79-83): skipped for an
empty or all-whitespace message, a merge note for a default merge message,
and otherwise the draft line. -/
def existingSection (em : List Char) : List (List Char) :=
  if !em.isEmpty && !pyIsSpaceStr em then
    if isMergeMessage em then [noteLine em] else [draftLine em]
  else []

def truncationMarker : List Char := "\n... [TRUNCATED]".toList

/-- Diff truncation (`llm_client.py` lines 87-88): diffs longer than 15000
characters are cut to their first 15000 characters and the marker is
appended. -/
def truncatedDiff (d : List Char) : List Char :=
  if d.length > 15000 then d.take 15000 ++ truncationMarker else d

def diffHeaderLine : List Char := "\n# Git Diff:".toList

def fenceOpenLine : List Char := "```diff".toList

def fenceCloseLine : List Char := "```".toList

def finalInstructionLine : List Char :=
  "\nGenerate the single-line commit message subject NOW:".toList

/-- The prompt lines appended before the Git Diff block
(`llm_client.py` lines 54-83). -/
def contextLines (ctx : CommitContext) : List (List Char) :=
  [promptHeaderLine, contextHeaderLine, branchLine ctx.branch_name] ++
  ticketSection ctx.branch_name ++
  [authorLine ctx.author_name] ++
  filesSection ctx.changed_files ++
  existingSection ctx.existing_message

/-- The Git Diff block and final instruction (`llm_client.py` lines 85-91). -/
def diffLines (d : List Char) : List (List Char) :=
  [diffHeaderLine, fenceOpenLine, truncatedDiff d, fenceCloseLine, finalInstructionLine]

def promptLines (ctx : CommitContext) : List (List Char) :=
  contextLines ctx ++ diffLines ctx.diff_text

/-- The user prompt: the prompt lines joined with newline
(`llm_client.py` line 93). -/
def userPrompt (ctx : CommitContext) : List Char :=
  List.intercalate ['\n'] (promptLines ctx)

/-- Any exception raised while calling the backend or reading its response,
carried as its rendered description. -/
structure BackendFailure where
  text : List Char

/-- The one error kind raised by `generate_commit_message_with_context`:
Python `ConnectionError`, with its message and the chained cause when one
exists. -/
inductive PyError where
  | connectionError (msg : List Char) (cause : Option (List Char))

def initFailureMsg : List Char := "LLM client failed to initialize.".toList

/-- Message of the `ConnectionError` raised on any backend failure
(`llm_client.py` line 133). -/
def commFailureMsg (baseUrl : List Char) : List Char :=
  "Failed to communicate with LLM service at ".toList ++ baseUrl

/-- Control flow of `generate_commit_message_with_context`
(`llm_client.py` lines 40-133): fail fast when the module-level client is
uninitialized; otherwise build the prompt, consult the backend (modelled as a
function from the user prompt to either a failure or the raw completion),
wrap any backend failure in a `ConnectionError` chaining the cause, and
sanitize a successful completion. -/
def generateCommitMessage (clientOk : Bool) (baseUrl : List Char)
    (backend : List Char → Except BackendFailure (List Char))
    (ctx : CommitContext) : Except PyError (List Char) :=
  if !clientOk then .error (.connectionError initFailureMsg none)
  else
    match backend (userPrompt ctx) with
    | .error e => .error (.connectionError (commFailureMsg baseUrl) (some e.text))
    | .ok raw => .ok (sanitizeCompletion raw)

structure HttpResponse where
  status : Nat
  body : List Char
deriving DecidableEq

def emptyDiffDetail : List Char := "diff_text cannot be empty.".toList

/-- The constant 503 detail of `main.py` line 114; no exception text is
interpolated into it. -/
def genericFailureDetail : List Char :=
  "Failed to generate commit message due to an internal server error.".toList

/-- The POST endpoint body (`main.py` lines 79-115) after authentication:
reject an empty or all-whitespace diff with 400, return the generated
message with 200, and map every exception from the generation step to a 503
carrying only the fixed generic detail. -/
def generateEndpoint (clientOk : Bool) (baseUrl : List Char)
    (backend : List Char → Except BackendFailure (List Char))
    (input : CommitContext) : HttpResponse :=
  if input.diff_text.isEmpty || pyIsSpaceStr input.diff_text then ⟨400, emptyDiffDetail⟩
  else
    match generateCommitMessage clientOk baseUrl backend input with
    | .ok msg => ⟨200, msg⟩
    | .error _ => ⟨503, genericFailureDetail⟩

structure HealthResponse where
  status : Nat
  body : List (List Char × List Char)

/-- The health endpoint `read_root` (`main.py` lines 67-70): a 200 response
whose JSON object has the keys `status` and `ollama_model`. -/
def readRoot (modelName : List Char) : HealthResponse :=
  ⟨200, [("status".toList, "ok".toList), ("ollama_model".toList, modelName)]⟩

/-- A character that none of the sanitizer stages would strip from an end of
the string: not whitespace, not a straight quote, not a backtick. -/
def goodEndChar (c : Char) : Bool := !(isPySpace c || isQuoteChar c || c == '`')

/-- Both ends of the string (when present) survive every stripping stage. -/
def goodEnds (s : List Char) : Bool :=
  (match s.head? with
   | some c => goodEndChar c
   | none => true) &&
  (match s.getLast? with
   | some c => goodEndChar c
   | none => true)

/-- Description of the quote step as amended for claim C2: one leading straight
quote is removed whenever present, then one trailing straight quote is removed
whenever present; the two ends are treated independently, with no matching
requirement between them. -/
def quoteStripSpec (s : List Char) : List Char :=
  let s1 :=
    match s.head? with
    | some c => if isQuoteChar c then s.tail else s
    | none => s
  match s1.getLast? with
  | some c => if isQuoteChar c then s1.dropLast else s1
  | none => s1

/-- A prompt line that surfaces a ticket hint: it starts with the fixed hint
marker text. -/
def isTicketHintLine (l : List Char) : Bool := ticketHintPrefix.isPrefixOf l

def noteLineMarker : List Char := "- Note: The existing message (".toList

/-- A prompt line carrying the default-merge-message note. -/
def isNoteLine (l : List Char) : Bool := noteLineMarker.isPrefixOf l

def draftLineMarker : List Char := "- Existing Message Draft: ".toList

/-- A prompt line presenting the existing message as a draft. -/
def isDraftLine (l : List Char) : Bool := draftLineMarker.isPrefixOf l

lemma sanitizeCompletion_eq_branches (raw : List Char) :
    sanitizeCompletion raw =
      if pyFirstLine (pyStrip isTickSpaceNewline
          (subTrailingQuote (subLeadingQuote (pyStrip isPySpace raw)))) = []
      then fallbackMessage
      else pyFirstLine (pyStrip isTickSpaceNewline
          (subTrailingQuote (subLeadingQuote (pyStrip isPySpace raw)))) := by
  by_cases h : pyStrip isTickSpaceNewline
      (subTrailingQuote (subLeadingQuote (pyStrip isPySpace raw))) = []
  · simp [sanitizeCompletion, h, pyFirstLine]
  · simp [sanitizeCompletion, h]

lemma sanitize_ne_nil (raw : List Char) : sanitizeCompletion raw ≠ [] := by
  rw [sanitizeCompletion_eq_branches]
  split
  · decide
  · next h => exact h

lemma fallback_no_linebreak : fallbackMessage.all (fun c => !isPyLineBreak c) = true := by
  decide

lemma sanitize_no_linebreak (raw : List Char) (c : Char)
    (hc : c ∈ sanitizeCompletion raw) : isPyLineBreak c = false := by
  rw [sanitizeCompletion_eq_branches] at hc
  split at hc
  · have h := List.all_eq_true.mp fallback_no_linebreak c hc
    simpa using h
  · have h := List.mem_takeWhile_imp hc
    simpa using h

/-- Claim C1: the sanitization stage always returns a non-empty string with no
newline; empty input and input whose stripping leaves nothing give exactly the
fallback message, and a multi-line completion keeps only its first line. -/
theorem C1_sanitizer_nonempty_single_line :
    (∀ raw : List Char, sanitizeCompletion raw ≠ [] ∧ '\n' ∉ sanitizeCompletion raw) ∧
    sanitizeCompletion [] = fallbackMessage ∧
    sanitizeCompletion "  \t ".toList = fallbackMessage ∧
    sanitizeCompletion [' ', '\x22', '`', '\n', '`', '\x22'] = fallbackMessage ∧
    sanitizeCompletion "feat: add X\nExtra detail".toList = "feat: add X".toList := by
  refine ⟨fun raw => ⟨sanitize_ne_nil raw, ?_⟩, by decide, by decide, by decide, by decide⟩
  intro hmem
  exact absurd (sanitize_no_linebreak raw '\n' hmem) (by decide)

lemma dropWhile_eq_self_of_head (p : Char → Bool) (s : List Char)
    (h : ∀ c, s.head? = some c → p c = false) : s.dropWhile p = s := by
  cases s with
  | nil => rfl
  | cons a t => simp [List.dropWhile_cons, h a rfl]

lemma pyRStrip_eq_self (p : Char → Bool) (s : List Char)
    (h : ∀ c, s.getLast? = some c → p c = false) : pyRStrip p s = s := by
  unfold pyRStrip
  rw [dropWhile_eq_self_of_head p s.reverse ?_, List.reverse_reverse]
  intro c hc
  rw [List.head?_reverse] at hc
  exact h c hc

lemma pyStrip_eq_self (p : Char → Bool) (s : List Char)
    (hh : ∀ c, s.head? = some c → p c = false)
    (hl : ∀ c, s.getLast? = some c → p c = false) : pyStrip p s = s := by
  unfold pyStrip pyLStrip
  rw [dropWhile_eq_self_of_head p s hh]
  exact pyRStrip_eq_self p s hl

lemma subLeadingQuote_eq_self (s : List Char)
    (h : ∀ c, s.head? = some c → isQuoteChar c = false) : subLeadingQuote s = s := by
  cases s with
  | nil => rfl
  | cons a t => simp [subLeadingQuote, h a rfl]

lemma subTrailingQuote_eq_self (s : List Char)
    (h : ∀ c, s.getLast? = some c → isQuoteChar c = false ∧ c ≠ '\n') :
    subTrailingQuote s = s := by
  cases hr : s.reverse with
  | nil =>
    unfold subTrailingQuote
    rw [hr]
    exact (List.reverse_eq_nil_iff.mp hr).symm
  | cons c rest =>
    have hlast : s.getLast? = some c := by
      rw [← List.head?_reverse, hr]
      rfl
    obtain ⟨hq, hn⟩ := h c hlast
    unfold subTrailingQuote
    rw [hr]
    simp [hq, hn]

lemma goodEndChar_props (c : Char) (h : goodEndChar c = true) :
    isPySpace c = false ∧ isQuoteChar c = false ∧
    isTickSpaceNewline c = false ∧ c ≠ '\n' := by
  simp only [goodEndChar, Bool.not_eq_true', Bool.or_eq_false_iff, beq_eq_false_iff_ne] at h
  obtain ⟨⟨h1, h2⟩, h3⟩ := h
  refine ⟨h1, h2, ?_, ?_⟩
  · simp only [isTickSpaceNewline, Bool.or_eq_false_iff, decide_eq_false_iff_not]
    refine ⟨⟨h3, ?_⟩, ?_⟩
    · rintro rfl
      exact absurd h1 (by decide)
    · rintro rfl
      exact absurd h1 (by decide)
  · rintro rfl
    exact absurd h1 (by decide)

lemma takeWhile_eq_self_of_all (p : Char → Bool) (s : List Char)
    (h : ∀ c ∈ s, p c = true) : s.takeWhile p = s :=
  List.takeWhile_eq_self_iff.mpr h

lemma sanitize_fixpoint (out : List Char) (hne : out ≠ [])
    (hnb : ∀ c ∈ out, isPyLineBreak c = false)
    (h : goodEnds out = true) : sanitizeCompletion out = out := by
  cases hhd : out.head? with
  | none => exact absurd (List.head?_eq_none_iff.mp hhd) hne
  | some a =>
  cases hlst : out.getLast? with
  | none => exact absurd (List.getLast?_eq_none_iff.mp hlst) hne
  | some b =>
  unfold goodEnds at h
  rw [hhd, hlst] at h
  simp only [Bool.and_eq_true] at h
  have pa := goodEndChar_props a h.1
  have pb := goodEndChar_props b h.2
  have e1 : pyStrip isPySpace out = out := by
    refine pyStrip_eq_self _ _ (fun c hc => ?_) (fun c hc => ?_)
    · rw [hhd] at hc
      injection hc with hc
      rw [← hc]
      exact pa.1
    · rw [hlst] at hc
      injection hc with hc
      rw [← hc]
      exact pb.1
  have e2 : subLeadingQuote out = out := by
    refine subLeadingQuote_eq_self _ (fun c hc => ?_)
    rw [hhd] at hc
    injection hc with hc
    rw [← hc]
    exact pa.2.1
  have e3 : subTrailingQuote out = out := by
    refine subTrailingQuote_eq_self _ (fun c hc => ?_)
    rw [hlst] at hc
    injection hc with hc
    rw [← hc]
    exact ⟨pb.2.1, pb.2.2.2⟩
  have e4 : pyStrip isTickSpaceNewline out = out := by
    refine pyStrip_eq_self _ _ (fun c hc => ?_) (fun c hc => ?_)
    · rw [hhd] at hc
      injection hc with hc
      rw [← hc]
      exact pa.2.2.1
    · rw [hlst] at hc
      injection hc with hc
      rw [← hc]
      exact pb.2.2.1
  have e5 : pyFirstLine out = out := by
    refine takeWhile_eq_self_of_all _ _ (fun c hc => ?_)
    simp [hnb c hc]
  rw [sanitizeCompletion_eq_branches out, e1, e2, e3, e4, e5, if_neg hne]

/-- Claim C3 (amended): the sanitizer is idempotent on every input whose
sanitized output neither begins nor ends with a whitespace, quote or backtick
character; in general a second application can strip further quote, backtick
or whitespace characters that the first pass exposed or kept. -/
theorem C3_sanitizer_idempotent_on_clean_output (raw : List Char)
    (h : goodEnds (sanitizeCompletion raw) = true) :
    sanitizeCompletion (sanitizeCompletion raw) = sanitizeCompletion raw :=
  sanitize_fixpoint (sanitizeCompletion raw) (sanitize_ne_nil raw)
    (fun c hc => sanitize_no_linebreak raw c hc) h

/-- Claim C3 counterexample: a completion wrapped in doubled single quotes is
not a fixed point of the sanitizer; the second application strips a second
quote pair, so the sanitizer as implemented is not idempotent. -/
theorem C3_counterexample :
    sanitizeCompletion (sanitizeCompletion ['\x27', '\x27', 'x', '\x27', '\x27']) ≠
      sanitizeCompletion ['\x27', '\x27', 'x', '\x27', '\x27'] := by decide

theorem C3_witness :
    sanitizeCompletion (sanitizeCompletion "fix: y".toList) =
      sanitizeCompletion "fix: y".toList :=
  C3_sanitizer_idempotent_on_clean_output "fix: y".toList (by decide)

lemma subTrailingQuote_no_newline (t : List Char) (h : t.getLast? ≠ some '\n') :
    subTrailingQuote t =
      match t.getLast? with
      | some c => if isQuoteChar c then t.dropLast else t
      | none => t := by
  cases hr : t.reverse with
  | nil =>
    have ht : t = [] := List.reverse_eq_nil_iff.mp hr
    subst ht
    rfl
  | cons c rest =>
    have hlast : t.getLast? = some c := by
      rw [← List.head?_reverse, hr]
      rfl
    rw [hlast]
    unfold subTrailingQuote
    rw [hr]
    by_cases hq : isQuoteChar c = true
    · have hct : t = rest.reverse ++ [c] := by
        rw [← List.reverse_reverse t, hr, List.reverse_cons]
      simp only [hq, if_true]
      rw [hct, List.dropLast_concat]
    · have hcn : c ≠ '\n' := fun hh => h (by rw [hlast, hh])
      simp at hq
      simp [hq, hcn]

lemma getLast?_tail_ne_newline (a : Char) (t : List Char)
    (h : (a :: t).getLast? ≠ some '\n') : t.getLast? ≠ some '\n' := by
  cases t with
  | nil => simp
  | cons b u =>
    rw [List.getLast?_cons_cons] at h
    exact h

/-- Claim C2 (amended): after the initial trim, the quote step of the
sanitizer removes one leading straight quote whenever one is present and,
independently, one trailing straight quote whenever one is present; no
matching between the two ends is required, so mismatched or single-sided
quotes are also stripped. -/
theorem C2_quote_strip_independent (s : List Char) (h : s.getLast? ≠ some '\n') :
    subTrailingQuote (subLeadingQuote s) = quoteStripSpec s := by
  cases s with
  | nil => rfl
  | cons a t =>
    by_cases hq : isQuoteChar a = true
    · have h1 : subLeadingQuote (a :: t) = t := by simp [subLeadingQuote, hq]
      have h2 : quoteStripSpec (a :: t) =
          (match t.getLast? with
           | some c => if isQuoteChar c then t.dropLast else t
           | none => t) := by
        simp [quoteStripSpec, hq]
      rw [h1, h2, subTrailingQuote_no_newline t (getLast?_tail_ne_newline a t h)]
    · have hq' : isQuoteChar a = false := by simpa using hq
      have h1 : subLeadingQuote (a :: t) = a :: t := by simp [subLeadingQuote, hq']
      have h2 : quoteStripSpec (a :: t) =
          (match (a :: t).getLast? with
           | some c => if isQuoteChar c then (a :: t).dropLast else a :: t
           | none => a :: t) := by
        simp [quoteStripSpec, hq']
      rw [h1, h2, subTrailingQuote_no_newline (a :: t) h]

/-- Claim C2 counterexample: a trimmed completion that begins with a double
quote and does not end with one is still changed by the quote step, which
strips the unmatched leading quote. -/
theorem C2_counterexample :
    subTrailingQuote (subLeadingQuote ['\x22', 'a', 'b', 'c']) ≠ ['\x22', 'a', 'b', 'c'] := by
  decide

theorem C2_witness :
    subTrailingQuote (subLeadingQuote ['\x22', 'a', 'b', 'c']) =
      quoteStripSpec ['\x22', 'a', 'b', 'c'] :=
  C2_quote_strip_independent ['\x22', 'a', 'b', 'c'] (by decide)

/-- Claim C4 (amended): the diff placed in the Git Diff block is the diff
itself when its length is at most 15000 characters; when longer, it is
exactly the first 15000 characters followed by a newline and then the
literal marker, the newline being part of the appended text. -/
theorem C4_diff_truncation (ctx : CommitContext) :
    truncatedDiff ctx.diff_text ∈ promptLines ctx ∧
    (ctx.diff_text.length > 15000 →
      truncatedDiff ctx.diff_text =
        ctx.diff_text.take 15000 ++ '\n' :: "... [TRUNCATED]".toList) ∧
    (ctx.diff_text.length ≤ 15000 → truncatedDiff ctx.diff_text = ctx.diff_text) := by
  refine ⟨?_, ?_, ?_⟩
  · simp [promptLines, diffLines]
  · intro h
    rw [truncatedDiff, if_pos h]
    rfl
  · intro h
    rw [truncatedDiff, if_neg (by omega)]

/-- Claim C4 counterexample: for a 15001-character diff the rendered diff is
not the 15000-character prefix immediately followed by the marker; the code
inserts a newline between the prefix and the marker text. -/
theorem C4_counterexample :
    truncatedDiff (List.replicate 15001 'a') ≠
      (List.replicate 15001 'a').take 15000 ++ "... [TRUNCATED]".toList := by
  intro h
  rw [truncatedDiff, if_pos (by rw [List.length_replicate]; omega)] at h
  exact absurd (List.append_cancel_left h) (by decide)

theorem C4_witness :
    truncatedDiff (List.replicate 15001 'a') =
      (List.replicate 15001 'a').take 15000 ++ '\n' :: "... [TRUNCATED]".toList :=
  (C4_diff_truncation ⟨List.replicate 15001 'a', [], [], [], []⟩).2.1
    (by show 15000 < (List.replicate 15001 'a').length
        rw [List.length_replicate]
        omega)

lemma isPrefixOf_cons_ne (a : Char) (ps : List Char) (c : Char) (t : List Char)
    (h : a ≠ c) : (a :: ps).isPrefixOf (c :: t) = false := by
  rw [List.isPrefixOf_cons₂]
  simp [h]

lemma isPrefixOf_cons3_ne (a b x : Char) (ps : List Char) (c : Char) (t : List Char)
    (h : x ≠ c) : (a :: b :: x :: ps).isPrefixOf (a :: b :: c :: t) = false := by
  rw [List.isPrefixOf_cons₂, List.isPrefixOf_cons₂, List.isPrefixOf_cons₂]
  simp [h]

lemma isPrefixOf_append_self (l r : List Char) : l.isPrefixOf (l ++ r) = true := by
  induction l with
  | nil => simp
  | cons a t ih => simp [List.isPrefixOf_cons₂, ih]

lemma tkh_promptHeader : isTicketHintLine promptHeaderLine = false := by decide

lemma tkh_contextHeader : isTicketHintLine contextHeaderLine = false := by decide

lemma tkh_filesHeader : isTicketHintLine changedFilesHeader = false := by decide

lemma tkh_branch (b : List Char) : isTicketHintLine (branchLine b) = false := by
  show ticketHintPrefix.isPrefixOf (branchLine b) = false
  rw [show ticketHintPrefix
        = '-' :: ' ' :: 'P' :: "otential Ticket ID from branch: ".toList from rfl,
      show branchLine b = '-' :: ' ' :: 'B' :: ("ranch: ".toList ++ b) from rfl]
  exact isPrefixOf_cons3_ne _ _ _ _ _ _ (by decide)

lemma tkh_author (a : List Char) : isTicketHintLine (authorLine a) = false := by
  show ticketHintPrefix.isPrefixOf (authorLine a) = false
  rw [show ticketHintPrefix
        = '-' :: ' ' :: 'P' :: "otential Ticket ID from branch: ".toList from rfl,
      show authorLine a = '-' :: ' ' :: 'A' :: ("uthor: ".toList ++ a) from rfl]
  exact isPrefixOf_cons3_ne _ _ _ _ _ _ (by decide)

lemma tkh_entry (f : List Char) : isTicketHintLine (fileEntryLine f) = false := by
  show ticketHintPrefix.isPrefixOf (fileEntryLine f) = false
  rw [show ticketHintPrefix
        = '-' :: (" Potential Ticket ID from branch: ".toList) from rfl,
      show fileEntryLine f = ' ' :: (" - ".toList ++ f) from rfl]
  exact isPrefixOf_cons_ne _ _ _ _ (by decide)

lemma tkh_more (k : Nat) : isTicketHintLine (moreFilesLine k) = false := by
  show ticketHintPrefix.isPrefixOf (moreFilesLine k) = false
  rw [show ticketHintPrefix
        = '-' :: (" Potential Ticket ID from branch: ".toList) from rfl,
      show moreFilesLine k
        = ' ' :: (" - ... (".toList ++ ((Nat.repr k).toList ++ " more)".toList)) from rfl]
  exact isPrefixOf_cons_ne _ _ _ _ (by decide)

lemma tkh_note (em : List Char) : isTicketHintLine (noteLine em) = false := by
  show ticketHintPrefix.isPrefixOf (noteLine em) = false
  rw [show ticketHintPrefix
        = '-' :: ' ' :: 'P' :: "otential Ticket ID from branch: ".toList from rfl,
      show noteLine em
        = '-' :: ' ' :: 'N' :: ("ote: The existing message (".toList ++
            '\x27' :: pyFirstLine em ++ "...".toList ++
            '\x27' :: ") seems like a default merge message. Generate a new message based *only* on the diff and other context.".toList) from rfl]
  exact isPrefixOf_cons3_ne _ _ _ _ _ _ (by decide)

lemma tkh_draft (em : List Char) : isTicketHintLine (draftLine em) = false := by
  show ticketHintPrefix.isPrefixOf (draftLine em) = false
  rw [show ticketHintPrefix
        = '-' :: ' ' :: 'P' :: "otential Ticket ID from branch: ".toList from rfl,
      show draftLine em
        = '-' :: ' ' :: 'E' :: ("xisting Message Draft: ".toList ++
            '\x27' :: pyFirstLine em ++
            '\x27' :: " (Analyze the diff and context. Either refine this draft or generate a completely new subject line if this draft is inadequate or inaccurate.)".toList) from rfl]
  exact isPrefixOf_cons3_ne _ _ _ _ _ _ (by decide)

lemma tkh_hint (t : List Char) : isTicketHintLine (ticketHintLine t) = true := by
  show ticketHintPrefix.isPrefixOf (ticketHintLine t) = true
  unfold ticketHintLine
  exact isPrefixOf_append_self _ _

lemma countP_tkh_files (fs : List (List Char)) :
    (filesSection fs).countP isTicketHintLine = 0 := by
  rw [List.countP_eq_zero]
  intro l hl
  unfold filesSection at hl
  split at hl
  · exact absurd hl (List.not_mem_nil l)
  · split at hl
    · simp only [List.mem_cons, List.mem_append, List.mem_map,
        List.not_mem_nil, or_false] at hl
      rcases hl with (rfl | ⟨f, _, rfl⟩) | rfl
      · simp [tkh_filesHeader]
      · simp [tkh_entry]
      · simp [tkh_more]
    · simp only [List.mem_cons, List.mem_append, List.mem_map,
        List.not_mem_nil, or_false] at hl
      rcases hl with rfl | ⟨f, _, rfl⟩
      · simp [tkh_filesHeader]
      · simp [tkh_entry]

lemma countP_tkh_existing (em : List Char) :
    (existingSection em).countP isTicketHintLine = 0 := by
  rw [List.countP_eq_zero]
  intro l hl
  unfold existingSection at hl
  split at hl
  · split at hl
    · rw [List.mem_singleton] at hl
      subst hl
      simp [tkh_note]
    · rw [List.mem_singleton] at hl
      subst hl
      simp [tkh_draft]
  · exact absurd hl (List.not_mem_nil l)

lemma countP_tkh_ticketSection_some (b t : List Char)
    (h : searchTicket b = some t) :
    (ticketSection b).countP isTicketHintLine = 1 := by
  unfold ticketSection
  rw [h]
  simp [List.countP_cons, tkh_hint]

lemma countP_tkh_ticketSection_none (b : List Char) (h : searchTicket b = none) :
    (ticketSection b).countP isTicketHintLine = 0 := by
  unfold ticketSection
  rw [h]
  rfl

lemma countP_tkh_context (ctx : CommitContext) :
    (contextLines ctx).countP isTicketHintLine =
      (ticketSection ctx.branch_name).countP isTicketHintLine := by
  unfold contextLines
  simp [List.countP_append, List.countP_cons, tkh_promptHeader, tkh_contextHeader,
    tkh_branch, tkh_author, countP_tkh_files, countP_tkh_existing]

/-- Claim C5: when the branch name contains a ticket-like substring the prompt
carries exactly one ticket-hint line naming the first match in upper case
(counted over the builder's context lines, the diff block reproducing the raw
diff verbatim), and no hint line is emitted when no such substring exists;
the two example branches behave as the spec states. -/
theorem C5_ticket_hint (ctx : CommitContext) :
    (∀ t, searchTicket ctx.branch_name = some t →
      ticketHintLine (t.map Char.toUpper) ∈ promptLines ctx ∧
      (contextLines ctx).countP isTicketHintLine = 1) ∧
    (searchTicket ctx.branch_name = none →
      (contextLines ctx).countP isTicketHintLine = 0) ∧
    searchTicket "feature/JIRA-123-x".toList = some "JIRA-123".toList ∧
    searchTicket "feature/update-docs".toList = none := by
  refine ⟨fun t ht => ⟨?_, ?_⟩, fun hn => ?_, by decide, by decide⟩
  · unfold promptLines contextLines ticketSection
    rw [ht]
    simp
  · rw [countP_tkh_context, countP_tkh_ticketSection_some ctx.branch_name t ht]
  · rw [countP_tkh_context, countP_tkh_ticketSection_none ctx.branch_name hn]

theorem C5_witness :
    ticketHintLine ("JIRA-123".toList.map Char.toUpper) ∈
      promptLines ⟨"d".toList, "feature/JIRA-123-x".toList, [], "A".toList, []⟩ ∧
    (contextLines ⟨"d".toList, "feature/JIRA-123-x".toList, [], "A".toList, []⟩).countP
      isTicketHintLine = 1 :=
  (C5_ticket_hint ⟨"d".toList, "feature/JIRA-123-x".toList, [], "A".toList, []⟩).1
    "JIRA-123".toList (by decide)

lemma note_promptHeader : isNoteLine promptHeaderLine = false := by decide

lemma note_contextHeader : isNoteLine contextHeaderLine = false := by decide

lemma note_filesHeader : isNoteLine changedFilesHeader = false := by decide

lemma note_branch (b : List Char) : isNoteLine (branchLine b) = false := by
  show noteLineMarker.isPrefixOf (branchLine b) = false
  rw [show noteLineMarker = '-' :: ' ' :: 'N' :: "ote: The existing message (".toList from rfl,
      show branchLine b = '-' :: ' ' :: 'B' :: ("ranch: ".toList ++ b) from rfl]
  exact isPrefixOf_cons3_ne _ _ _ _ _ _ (by decide)

lemma note_author (a : List Char) : isNoteLine (authorLine a) = false := by
  show noteLineMarker.isPrefixOf (authorLine a) = false
  rw [show noteLineMarker = '-' :: ' ' :: 'N' :: "ote: The existing message (".toList from rfl,
      show authorLine a = '-' :: ' ' :: 'A' :: ("uthor: ".toList ++ a) from rfl]
  exact isPrefixOf_cons3_ne _ _ _ _ _ _ (by decide)

lemma note_hint (t : List Char) : isNoteLine (ticketHintLine t) = false := by
  show noteLineMarker.isPrefixOf (ticketHintLine t) = false
  rw [show noteLineMarker = '-' :: ' ' :: 'N' :: "ote: The existing message (".toList from rfl,
      show ticketHintLine t = '-' :: ' ' :: 'P' :: ("otential Ticket ID from branch: ".toList ++
        (t ++ " (If relevant, the commit body should reference this, e.g., ".toList ++
         '\x27' :: "Refs ".toList ++ t ++
         '\x27' :: ", but DO NOT include it in the subject line itself unless essential).".toList)) from rfl]
  exact isPrefixOf_cons3_ne _ _ _ _ _ _ (by decide)

lemma note_entry (f : List Char) : isNoteLine (fileEntryLine f) = false := by
  show noteLineMarker.isPrefixOf (fileEntryLine f) = false
  rw [show noteLineMarker = '-' :: (" Note: The existing message (".toList) from rfl,
      show fileEntryLine f = ' ' :: (" - ".toList ++ f) from rfl]
  exact isPrefixOf_cons_ne _ _ _ _ (by decide)

lemma note_more (k : Nat) : isNoteLine (moreFilesLine k) = false := by
  show noteLineMarker.isPrefixOf (moreFilesLine k) = false
  rw [show noteLineMarker = '-' :: (" Note: The existing message (".toList) from rfl,
      show moreFilesLine k
        = ' ' :: (" - ... (".toList ++ ((Nat.repr k).toList ++ " more)".toList)) from rfl]
  exact isPrefixOf_cons_ne _ _ _ _ (by decide)

lemma note_draft (em : List Char) : isNoteLine (draftLine em) = false := by
  show noteLineMarker.isPrefixOf (draftLine em) = false
  rw [show noteLineMarker = '-' :: ' ' :: 'N' :: "ote: The existing message (".toList from rfl,
      show draftLine em
        = '-' :: ' ' :: 'E' :: ("xisting Message Draft: ".toList ++
            '\x27' :: pyFirstLine em ++
            '\x27' :: " (Analyze the diff and context. Either refine this draft or generate a completely new subject line if this draft is inadequate or inaccurate.)".toList) from rfl]
  exact isPrefixOf_cons3_ne _ _ _ _ _ _ (by decide)

lemma note_note (em : List Char) : isNoteLine (noteLine em) = true := by
  show noteLineMarker.isPrefixOf (noteLine em) = true
  unfold noteLineMarker noteLine
  exact isPrefixOf_append_self _ _

lemma draft_promptHeader : isDraftLine promptHeaderLine = false := by decide

lemma draft_contextHeader : isDraftLine contextHeaderLine = false := by decide

lemma draft_filesHeader : isDraftLine changedFilesHeader = false := by decide

lemma draft_branch (b : List Char) : isDraftLine (branchLine b) = false := by
  show draftLineMarker.isPrefixOf (branchLine b) = false
  rw [show draftLineMarker = '-' :: ' ' :: 'E' :: "xisting Message Draft: ".toList from rfl,
      show branchLine b = '-' :: ' ' :: 'B' :: ("ranch: ".toList ++ b) from rfl]
  exact isPrefixOf_cons3_ne _ _ _ _ _ _ (by decide)

lemma draft_author (a : List Char) : isDraftLine (authorLine a) = false := by
  show draftLineMarker.isPrefixOf (authorLine a) = false
  rw [show draftLineMarker = '-' :: ' ' :: 'E' :: "xisting Message Draft: ".toList from rfl,
      show authorLine a = '-' :: ' ' :: 'A' :: ("uthor: ".toList ++ a) from rfl]
  exact isPrefixOf_cons3_ne _ _ _ _ _ _ (by decide)

lemma draft_hint (t : List Char) : isDraftLine (ticketHintLine t) = false := by
  show draftLineMarker.isPrefixOf (ticketHintLine t) = false
  rw [show draftLineMarker = '-' :: ' ' :: 'E' :: "xisting Message Draft: ".toList from rfl,
      show ticketHintLine t = '-' :: ' ' :: 'P' :: ("otential Ticket ID from branch: ".toList ++
        (t ++ " (If relevant, the commit body should reference this, e.g., ".toList ++
         '\x27' :: "Refs ".toList ++ t ++
         '\x27' :: ", but DO NOT include it in the subject line itself unless essential).".toList)) from rfl]
  exact isPrefixOf_cons3_ne _ _ _ _ _ _ (by decide)

lemma draft_entry (f : List Char) : isDraftLine (fileEntryLine f) = false := by
  show draftLineMarker.isPrefixOf (fileEntryLine f) = false
  rw [show draftLineMarker = '-' :: (" Existing Message Draft: ".toList) from rfl,
      show fileEntryLine f = ' ' :: (" - ".toList ++ f) from rfl]
  exact isPrefixOf_cons_ne _ _ _ _ (by decide)

lemma draft_more (k : Nat) : isDraftLine (moreFilesLine k) = false := by
  show draftLineMarker.isPrefixOf (moreFilesLine k) = false
  rw [show draftLineMarker = '-' :: (" Existing Message Draft: ".toList) from rfl,
      show moreFilesLine k
        = ' ' :: (" - ... (".toList ++ ((Nat.repr k).toList ++ " more)".toList)) from rfl]
  exact isPrefixOf_cons_ne _ _ _ _ (by decide)

lemma draft_note (em : List Char) : isDraftLine (noteLine em) = false := by
  show draftLineMarker.isPrefixOf (noteLine em) = false
  rw [show draftLineMarker = '-' :: ' ' :: 'E' :: "xisting Message Draft: ".toList from rfl,
      show noteLine em
        = '-' :: ' ' :: 'N' :: ("ote: The existing message (".toList ++
            '\x27' :: pyFirstLine em ++ "...".toList ++
            '\x27' :: ") seems like a default merge message. Generate a new message based *only* on the diff and other context.".toList) from rfl]
  exact isPrefixOf_cons3_ne _ _ _ _ _ _ (by decide)

lemma draft_draft (em : List Char) : isDraftLine (draftLine em) = true := by
  show draftLineMarker.isPrefixOf (draftLine em) = true
  unfold draftLineMarker draftLine
  exact isPrefixOf_append_self _ _

lemma countP_note_files (fs : List (List Char)) :
    (filesSection fs).countP isNoteLine = 0 := by
  rw [List.countP_eq_zero]
  intro l hl
  unfold filesSection at hl
  split at hl
  · exact absurd hl (List.not_mem_nil l)
  · split at hl
    · simp only [List.mem_cons, List.mem_append, List.mem_map,
        List.not_mem_nil, or_false] at hl
      rcases hl with (rfl | ⟨f, _, rfl⟩) | rfl
      · simp [note_filesHeader]
      · simp [note_entry]
      · simp [note_more]
    · simp only [List.mem_cons, List.mem_append, List.mem_map,
        List.not_mem_nil, or_false] at hl
      rcases hl with rfl | ⟨f, _, rfl⟩
      · simp [note_filesHeader]
      · simp [note_entry]

lemma countP_draft_files (fs : List (List Char)) :
    (filesSection fs).countP isDraftLine = 0 := by
  rw [List.countP_eq_zero]
  intro l hl
  unfold filesSection at hl
  split at hl
  · exact absurd hl (List.not_mem_nil l)
  · split at hl
    · simp only [List.mem_cons, List.mem_append, List.mem_map,
        List.not_mem_nil, or_false] at hl
      rcases hl with (rfl | ⟨f, _, rfl⟩) | rfl
      · simp [draft_filesHeader]
      · simp [draft_entry]
      · simp [draft_more]
    · simp only [List.mem_cons, List.mem_append, List.mem_map,
        List.not_mem_nil, or_false] at hl
      rcases hl with rfl | ⟨f, _, rfl⟩
      · simp [draft_filesHeader]
      · simp [draft_entry]

lemma countP_note_ticketSection (b : List Char) :
    (ticketSection b).countP isNoteLine = 0 := by
  unfold ticketSection
  cases searchTicket b with
  | none => rfl
  | some t => simp [List.countP_cons, note_hint]

lemma countP_draft_ticketSection (b : List Char) :
    (ticketSection b).countP isDraftLine = 0 := by
  unfold ticketSection
  cases searchTicket b with
  | none => rfl
  | some t => simp [List.countP_cons, draft_hint]

lemma countP_note_context (ctx : CommitContext) :
    (contextLines ctx).countP isNoteLine =
      (existingSection ctx.existing_message).countP isNoteLine := by
  unfold contextLines
  simp [List.countP_append, List.countP_cons, note_promptHeader, note_contextHeader,
    note_branch, note_author, countP_note_files, countP_note_ticketSection]

lemma countP_draft_context (ctx : CommitContext) :
    (contextLines ctx).countP isDraftLine =
      (existingSection ctx.existing_message).countP isDraftLine := by
  unfold contextLines
  simp [List.countP_append, List.countP_cons, draft_promptHeader, draft_contextHeader,
    draft_branch, draft_author, countP_draft_files, countP_draft_ticketSection]

lemma containsSubstring_head_mem (a : Char) (pat s : List Char)
    (hp : pat.head? = some a) (h : containsSubstring pat s = true) : a ∈ s := by
  induction s with
  | nil =>
    cases pat with
    | nil => simp at hp
    | cons x xs => exact absurd h (by simp [containsSubstring])
  | cons c cs ih =>
    unfold containsSubstring at h
    rw [Bool.or_eq_true] at h
    cases h with
    | inl hpre =>
      cases pat with
      | nil => simp at hp
      | cons x xs =>
        have hx : x = a := by
          rw [List.head?_cons] at hp
          injection hp
        rw [List.isPrefixOf_cons₂, Bool.and_eq_true, beq_iff_eq] at hpre
        rw [← hx, ← hpre.1]
        exact List.mem_cons_self x cs
    | inr h2 => exact List.mem_cons_of_mem c (ih h2)

lemma merge_nonempty_nonspace (em : List Char) (h : isMergeMessage em = true) :
    em.isEmpty = false ∧ pyIsSpaceStr em = false := by
  have hM : 'M' ∈ em := by
    unfold isMergeMessage at h
    rw [Bool.or_eq_true] at h
    cases h with
    | inl h => exact containsSubstring_head_mem 'M' mergePullRequestPattern em (by rfl) h
    | inr h => exact containsSubstring_head_mem 'M' mergeBranchPattern em (by rfl) h
  have hall : em.all isPySpace = false := by
    cases hq : em.all isPySpace with
    | false => rfl
    | true => exact absurd (List.all_eq_true.mp hq 'M' hM) (by decide)
  constructor
  · cases em with
    | nil => exact absurd hM (List.not_mem_nil _)
    | cons a l => rfl
  · simp [pyIsSpaceStr, hall]

lemma existingSection_merge (em : List Char) (h : isMergeMessage em = true) :
    existingSection em = [noteLine em] := by
  obtain ⟨he, hs⟩ := merge_nonempty_nonspace em h
  simp [existingSection, he, hs, h]

lemma existingSection_draft (em : List Char) (h1 : em ≠ [])
    (h2 : em.all isPySpace = false) (h3 : isMergeMessage em = false) :
    existingSection em = [draftLine em] := by
  have he : em.isEmpty = false := by
    cases em with
    | nil => exact absurd rfl h1
    | cons a l => rfl
  have hs : pyIsSpaceStr em = false := by simp [pyIsSpaceStr, h2]
  simp [existingSection, he, hs, h3]

lemma existingSection_absent (em : List Char)
    (h : em = [] ∨ em.all isPySpace = true) : existingSection em = [] := by
  rcases h with rfl | hall
  · rfl
  · by_cases hn : em = []
    · subst hn
      rfl
    · have he : em.isEmpty = false := by
        cases em with
        | nil => exact absurd rfl hn
        | cons a l => rfl
      have hs : pyIsSpaceStr em = true := by simp [pyIsSpaceStr, he, hall]
      simp [existingSection, hs]

/-- Claim C6: a default merge message surfaces the merge note and suppresses
the draft line; a non-empty, non-whitespace, non-merge message surfaces the
draft line and no note; an empty or all-whitespace message surfaces neither;
and the note and the draft are mutually exclusive for every input (counted
over the builder's context lines, the diff block reproducing the raw diff
verbatim). -/
theorem C6_merge_note_vs_draft (ctx : CommitContext) :
    (isMergeMessage ctx.existing_message = true →
      noteLine ctx.existing_message ∈ promptLines ctx ∧
      (contextLines ctx).countP isDraftLine = 0) ∧
    (ctx.existing_message ≠ [] → ctx.existing_message.all isPySpace = false →
      isMergeMessage ctx.existing_message = false →
      draftLine ctx.existing_message ∈ promptLines ctx ∧
      (contextLines ctx).countP isNoteLine = 0) ∧
    ((ctx.existing_message = [] ∨ ctx.existing_message.all isPySpace = true) →
      (contextLines ctx).countP isNoteLine = 0 ∧
      (contextLines ctx).countP isDraftLine = 0) ∧
    ((contextLines ctx).countP isNoteLine = 0 ∨
      (contextLines ctx).countP isDraftLine = 0) := by
  refine ⟨fun h => ⟨?_, ?_⟩, fun h1 h2 h3 => ⟨?_, ?_⟩, fun h => ⟨?_, ?_⟩, ?_⟩
  · unfold promptLines contextLines
    rw [existingSection_merge _ h]
    simp
  · rw [countP_draft_context, existingSection_merge _ h]
    simp [List.countP_cons, draft_note]
  · unfold promptLines contextLines
    rw [existingSection_draft _ h1 h2 h3]
    simp
  · rw [countP_note_context, existingSection_draft _ h1 h2 h3]
    simp [List.countP_cons, note_draft]
  · rw [countP_note_context, existingSection_absent _ h]
    rfl
  · rw [countP_draft_context, existingSection_absent _ h]
    rfl
  · by_cases hm : isMergeMessage ctx.existing_message = true
    · right
      rw [countP_draft_context, existingSection_merge _ hm]
      simp [List.countP_cons, draft_note]
    · left
      rw [countP_note_context]
      have hm' : isMergeMessage ctx.existing_message = false := by
        cases hq : isMergeMessage ctx.existing_message with
        | false => rfl
        | true => exact absurd hq hm
      unfold existingSection
      split
      · simp [hm', List.countP_cons, note_draft]
      · rfl

theorem C6_witness :
    noteLine "Merge pull request #42 from x/y".toList ∈
      promptLines ⟨"d".toList, "b".toList, [], "A".toList,
        "Merge pull request #42 from x/y".toList⟩ ∧
    (contextLines ⟨"d".toList, "b".toList, [], "A".toList,
        "Merge pull request #42 from x/y".toList⟩).countP isDraftLine = 0 :=
  (C6_merge_note_vs_draft ⟨"d".toList, "b".toList, [], "A".toList,
    "Merge pull request #42 from x/y".toList⟩).1 (by decide)

/-- Claim C7: with more than ten changed files the section lists exactly the
first ten entries in input order plus one remainder line with the remaining
count; with one to ten files all entries are listed and no remainder line is
added; with no files the section is omitted entirely; and the section sits
as one contiguous block inside the builder's context lines. -/
theorem C7_changed_files (ctx : CommitContext) :
    (ctx.changed_files.length > 10 →
      filesSection ctx.changed_files =
        changedFilesHeader :: ((ctx.changed_files.take 10).map fileEntryLine ++
          [moreFilesLine (ctx.changed_files.length - 10)])) ∧
    (ctx.changed_files ≠ [] → ctx.changed_files.length ≤ 10 →
      filesSection ctx.changed_files =
        changedFilesHeader :: ctx.changed_files.map fileEntryLine) ∧
    (ctx.changed_files = [] → filesSection ctx.changed_files = []) ∧
    ∃ pre post, contextLines ctx = pre ++ filesSection ctx.changed_files ++ post := by
  refine ⟨fun h => ?_, fun h1 h2 => ?_, fun h => ?_, ?_⟩
  · have hne : ctx.changed_files.isEmpty = false := by
      cases hq : ctx.changed_files with
      | nil =>
        rw [hq] at h
        simp at h
      | cons a l => rfl
    simp [filesSection, hne, h]
  · have hne : ctx.changed_files.isEmpty = false := by
      cases hq : ctx.changed_files with
      | nil => exact absurd hq h1
      | cons a l => rfl
    have hng : ¬ (ctx.changed_files.length > 10) := by omega
    have htk : ctx.changed_files.take 10 = ctx.changed_files :=
      List.take_of_length_le h2
    simp [filesSection, hne, hng, htk]
  · rw [h]
    rfl
  · exact ⟨[promptHeaderLine, contextHeaderLine, branchLine ctx.branch_name] ++
      ticketSection ctx.branch_name ++ [authorLine ctx.author_name],
      existingSection ctx.existing_message, by simp [contextLines]⟩

theorem C7_witness :
    filesSection (List.replicate 11 "f".toList) =
      changedFilesHeader :: (((List.replicate 11 "f".toList).take 10).map fileEntryLine ++
        [moreFilesLine ((List.replicate 11 "f".toList).length - 10)]) :=
  (C7_changed_files ⟨"d".toList, "b".toList, List.replicate 11 "f".toList,
    "A".toList, []⟩).1
    (by show 10 < (List.replicate 11 "f".toList).length
        rw [List.length_replicate]
        omega)

/-- Claim C8: every backend failure of the model-invocation step is surfaced
by the generation function as the single `ConnectionError` kind carrying the
original cause, and the endpoint maps any such failure to a 503 whose detail
is the fixed generic string, identical for every underlying failure and
built without the exception text. -/
theorem C8_backend_failure_uniform (baseUrl : List Char) (e : BackendFailure)
    (backend : List Char → Except BackendFailure (List Char)) (ctx : CommitContext)
    (hb : backend (userPrompt ctx) = .error e)
    (hd : (ctx.diff_text.isEmpty || pyIsSpaceStr ctx.diff_text) = false) :
    generateCommitMessage true baseUrl backend ctx =
      .error (.connectionError (commFailureMsg baseUrl) (some e.text)) ∧
    generateEndpoint true baseUrl backend ctx = ⟨503, genericFailureDetail⟩ := by
  have hg : generateCommitMessage true baseUrl backend ctx =
      .error (.connectionError (commFailureMsg baseUrl) (some e.text)) := by
    simp [generateCommitMessage, hb]
  exact ⟨hg, by simp [generateEndpoint, hd, hg]⟩

theorem C8_witness :
    generateCommitMessage true "http://h:1/v1".toList
        (fun _ => .error ⟨"boom".toList⟩)
        ⟨"x".toList, "b".toList, [], "A".toList, []⟩ =
      .error (.connectionError (commFailureMsg "http://h:1/v1".toList)
        (some "boom".toList)) ∧
    generateEndpoint true "http://h:1/v1".toList (fun _ => .error ⟨"boom".toList⟩)
        ⟨"x".toList, "b".toList, [], "A".toList, []⟩ = ⟨503, genericFailureDetail⟩ :=
  C8_backend_failure_uniform "http://h:1/v1".toList ⟨"boom".toList⟩
    (fun _ => .error ⟨"boom".toList⟩)
    ⟨"x".toList, "b".toList, [], "A".toList, []⟩ rfl (by decide)

/-- Claim C9 (amended): the health endpoint always returns 200 with a JSON
object whose `status` key holds `ok` and whose model key is named
`ollama_model` rather than `model`, holding the configured model
identifier. -/
theorem C9_health_endpoint (modelName : List Char) :
    (readRoot modelName).status = 200 ∧
    (readRoot modelName).body.lookup "status".toList = some "ok".toList ∧
    (readRoot modelName).body.lookup "ollama_model".toList = some modelName ∧
    (readRoot modelName).body.lookup "model".toList = none :=
  ⟨rfl, rfl, rfl, rfl⟩

/-- Claim C9 counterexample: with the configured model `llama3` the health
response carries no `model` key; the identifier sits under `ollama_model`. -/
theorem C9_counterexample :
    (readRoot "llama3".toList).body.lookup "model".toList ≠ some "llama3".toList ∧
    (readRoot "llama3".toList).body.lookup "ollama_model".toList =
      some "llama3".toList := by
  exact ⟨by decide, by decide⟩

/-- Claim C10: with the module-level client uninitialized, every call of the
generation function fails with the fixed `ConnectionError` carrying no
cause, identically for every base URL, backend behaviour and input, before
any prompt construction or backend interaction. -/
theorem C10_uninitialized_client (baseUrl : List Char)
    (backend : List Char → Except BackendFailure (List Char)) (ctx : CommitContext) :
    generateCommitMessage false baseUrl backend ctx =
      .error (.connectionError initFailureMsg none) := rfl
